import Mathlib

/-!
# Verification of the osm2pgsql gazetteer style core

Shallow embedding of `src/gazetteer-style.hpp`: the gazetteer place-table
delete batcher (`db_deleter_place_t`), the table-bound copy manager
(`gazetteer_copy_mgr_t`) and the tag classification engine
(`gazetteer_style_t`).  The header gives the data layout and the inline
member bodies (`add`, `has_data`, `is_full`, the copy-manager constructor
and `prepare`); the bodies of `find_flag`, `process_tags`,
`filter_main_tags` and `delete_rows` live in a `.cpp` file that is not part
of the sources, so those are modelled from the specification (each such
definition says so in its doc comment).
-/

/-- The flag set attached to a matched attribute.  The source stores this as
a `uint16_t` bitmask (`style_flags`); each bit of that mask is one `Bool`
field here, in declaration order of the source enum. -/
structure flag_t where
  SF_MAIN : Bool := false
  SF_MAIN_NAMED : Bool := false
  SF_MAIN_NAMED_KEY : Bool := false
  SF_MAIN_FALLBACK : Bool := false
  SF_MAIN_OPERATOR : Bool := false
  SF_NAME : Bool := false
  SF_REF : Bool := false
  SF_ADDRESS : Bool := false
  SF_ADDRESS_POINT : Bool := false
  SF_POSTCODE : Bool := false
  SF_COUNTRY : Bool := false
  SF_EXTRA : Bool := false
  SF_INTERPOLATION : Bool := false
  SF_BOUNDARY : Bool := false
deriving DecidableEq, Repr

/-- The five rule match kinds of the source enum `matcher_t`
(`MT_FULL`, `MT_KEY`, `MT_PREFIX`, `MT_SUFFIX`, `MT_VALUE`); the third and
fourth are abbreviated `MT_PREF`/`MT_SUFF` here. -/
inductive matcher_t where
  | MT_FULL
  | MT_KEY
  | MT_PREF
  | MT_SUFF
  | MT_VALUE
deriving DecidableEq, Repr

/-- One compiled style rule.  The source's `string_with_flag_t` packs the
key/value patterns into a single encoded `name` string; the encoding is
defined only in the missing `.cpp`, so the rule carries the spec's data
model instead: optional key pattern, optional value pattern, a flag set and
the match kind.  `MT_KEY`/`MT_PREF`/`MT_SUFF` rules use `key` and ignore
`value`; `MT_VALUE` rules use `value`; `MT_FULL` rules use both. -/
structure style_rule_t where
  key : Option String := none
  value : Option String := none
  flag : flag_t := {}
  type : matcher_t
deriving DecidableEq, Repr

/-- Whether the first character list starts the second one. -/
def starts_with_chars : List Char → List Char → Bool
  | [], _ => true
  | _ :: _, [] => false
  | a :: as, b :: bs => a == b && starts_with_chars as bs

/-- Whether `p` is an initial segment of `s`. -/
def string_starts_with (p s : String) : Bool :=
  starts_with_chars p.data s.data

/-- Whether `p` is a final segment of `s`. -/
def string_ends_with (p s : String) : Bool :=
  starts_with_chars p.data.reverse s.data.reverse

/-- Whether a rule matches an attribute `(k, v)`.  Modelled from the spec:
the matching body is in the missing `.cpp`.  A full rule requires both
patterns to agree, a key-only rule only the key, a pre/suf rule that the
key pattern starts/ends the attribute key, a value-only rule only the
value. -/
def rule_matches (r : style_rule_t) (k v : String) : Bool :=
  match r.type with
  | .MT_FULL => r.key == some k && r.value == some v
  | .MT_KEY => r.key == some k
  | .MT_PREF =>
    match r.key with
    | some p => string_starts_with p k
    | none => false
  | .MT_SUFF =>
    match r.key with
    | some p => string_ends_with p k
    | none => false
  | .MT_VALUE => r.value == some v

/-- Precedence level of a match kind, smaller is stronger:
Full > KeyOnly > Pre/Suf > ValueOnly (spec §4.2 step 1). -/
def match_level : matcher_t → Nat
  | .MT_FULL => 0
  | .MT_KEY => 1
  | .MT_PREF => 2
  | .MT_SUFF => 2
  | .MT_VALUE => 3

/-- The source's `MAX_ADMINLEVEL` enum constant. -/
def MAX_ADMINLEVEL : Int := 15

/-- The classifier state: the style data loaded once (`m_matcher`,
`m_default`, `m_any_operator_matches`, `m_metadata_fields`) and the cached
per-object data that `process_tags` refills for every object (`m_main`,
`m_names`, `m_extra`, `m_address`, `m_operator`, `m_admin_level`).  The
borrowed `char const *` pairs of the source become owned string pairs;
`osmium::metadata_options` is kept as its configuration string. -/
structure gazetteer_style_t where
  m_matcher : List style_rule_t := []
  m_default : flag_t := {}
  m_any_operator_matches : Bool := false
  m_main : List (String × String × flag_t) := []
  m_names : List (String × String) := []
  m_extra : List (String × String) := []
  m_address : List (String × String) := []
  m_operator : Option String := none
  m_admin_level : Int := MAX_ADMINLEVEL
  m_metadata_fields : String := "none"
deriving DecidableEq, Repr

/-- An OSM object as the classifier sees it: its tag list plus the
`is_named` input of spec §4.2 ("whether the object carries a usable name
attribute").  Geometry, id and kind are not consulted by the modelled
functions. -/
structure osm_object_t where
  tags : List (String × String) := []
  is_named : Bool := false
deriving DecidableEq, Repr

/-- First rule of level `lvl` that matches `(k, v)`. -/
def find_best (rules : List style_rule_t) (lvl : Nat) (k v : String) :
    Option style_rule_t :=
  rules.find? (fun r => match_level r.type == lvl && rule_matches r k v)

/-- `gazetteer_style_t::find_flag`.  Modelled from the spec: the body is in
the missing `.cpp`.  The single best-matching rule wins, precedence
`MT_FULL` then `MT_KEY` then `MT_PREF`/`MT_SUFF` then `MT_VALUE`, earlier
declared rules first within a level; with no match the table's default
flags apply. -/
def gazetteer_style_t.find_flag (s : gazetteer_style_t) (k v : String) : flag_t :=
  match find_best s.m_matcher 0 k v with
  | some r => r.flag
  | none =>
    match find_best s.m_matcher 1 k v with
    | some r => r.flag
    | none =>
      match find_best s.m_matcher 2 k v with
      | some r => r.flag
      | none =>
        match find_best s.m_matcher 3 k v with
        | some r => r.flag
        | none => s.m_default

/-- The main-tag candidates of an object: every attribute whose matched
flags contain `SF_MAIN`, as a `(class, type, flags)` triple (source type
`pmaintag_t`). -/
def main_candidates (s : gazetteer_style_t) (tags : List (String × String)) :
    List (String × String × flag_t) :=
  tags.filterMap (fun p =>
    if (s.find_flag p.1 p.2).SF_MAIN then some (p.1, p.2, s.find_flag p.1 p.2)
    else none)

/-- The name bucket before operator synthesis: attributes flagged `SF_NAME`
or `SF_REF` (spec §4.2 step 2: `Ref` contributes to names). -/
def base_names (s : gazetteer_style_t) (tags : List (String × String)) :
    List (String × String) :=
  tags.filter (fun p =>
    (s.find_flag p.1 p.2).SF_NAME || (s.find_flag p.1 p.2).SF_REF)

/-- Modelled from the spec: "a same-key name variant exists on the object"
(the `MainNamedKey` gate) — a collected name tag whose key is
`name:` followed by the candidate's key. -/
def name_key_variant_exists (names : List (String × String)) (k : String) : Bool :=
  names.any (fun p => p.1 == "name:" ++ k)

/-- Modelled from the spec: "a stronger (non-fallback) main candidate
exists" — some main candidate whose flags do not contain
`SF_MAIN_FALLBACK`. -/
def stronger_main_exists (cands : List (String × String × flag_t)) : Bool :=
  cands.any (fun c => !c.2.2.SF_MAIN_FALLBACK)

/-- Modelled from the spec: the captured operator value.  When the table
has an operator rule (`m_any_operator_matches`) and the object carries an
attribute literally keyed `operator`, its value is captured; otherwise
nothing is. -/
def operator_present (s : gazetteer_style_t) (tags : List (String × String)) :
    Option String :=
  if s.m_any_operator_matches then
    (tags.find? (fun p => p.1 == "operator")).map (fun p => p.2)
  else none

/-- Modelled from the spec: the synthetic name entry "derived from
`(operator_value, class)`" that operator synthesis adds to the name
bucket. -/
def operator_name (op cls : String) : String × String :=
  ("operator:" ++ cls, op)

/-- Modelled from the spec (§4.2 step 3): whether a main candidate with key
`k` and flags `f` is retained.  One of the retention arms must hold —
`MainNamed` with a named object, `MainNamedKey` with a same-key name
variant, `MainFallback` with no stronger candidate, or unconditional
`Main` carrying none of those three conditional sub-flags — and a
`MainOperator` candidate additionally requires the captured operator to be
present ("retained only when `any_operator_rule_present` is true and an
operator attribute is present"). -/
def retain_main (is_named : Bool) (names : List (String × String))
    (stronger : Bool) (op_present : Bool) (k : String) (f : flag_t) : Bool :=
  ((f.SF_MAIN_NAMED && is_named) ||
   (f.SF_MAIN_NAMED_KEY && name_key_variant_exists names k) ||
   (f.SF_MAIN_FALLBACK && !stronger) ||
   (!f.SF_MAIN_NAMED && !f.SF_MAIN_NAMED_KEY && !f.SF_MAIN_FALLBACK)) &&
  (!f.SF_MAIN_OPERATOR || op_present)

/-- Modelled from the spec: whether the object is Boundary-flagged — some
attribute's matched flags contain `SF_BOUNDARY`. -/
def object_is_boundary (s : gazetteer_style_t) (tags : List (String × String)) : Bool :=
  tags.any (fun p => (s.find_flag p.1 p.2).SF_BOUNDARY)

/-- Decimal digits accumulated left to right; any non-digit fails. -/
def parse_digits_acc : List Char → Nat → Option Nat
  | [], acc => some acc
  | c :: cs, acc =>
    if '0' ≤ c && c ≤ '9' then
      parse_digits_acc cs (acc * 10 + (c.toNat - '0'.toNat))
    else none

/-- Modelled from the spec: "the attribute value parses to an integer" — a
strict decimal integer parse, with an optional leading minus sign;
anything else (empty, stray characters) yields nothing. -/
def parse_int (s : String) : Option Int :=
  match s.data with
  | [] => none
  | '-' :: [] => none
  | '-' :: c :: cs => (parse_digits_acc (c :: cs) 0).map (fun n => -(n : Int))
  | c :: cs => (parse_digits_acc (c :: cs) 0).map (fun n => (n : Int))

/-- Modelled from the spec (§4.2 step 2): the derived admin level.  It is
`MAX_ADMINLEVEL` (the sentinel 15) unless the object carries an attribute
literally keyed `admin_level`, the object is Boundary-flagged, and the
value parses to an integer within `[0, 15]`; unparsable or out-of-range
values keep the sentinel. -/
def admin_level_of (s : gazetteer_style_t) (tags : List (String × String)) : Int :=
  match tags.find? (fun p => p.1 == "admin_level") with
  | none => MAX_ADMINLEVEL
  | some p =>
    if object_is_boundary s tags then
      match parse_int p.2 with
      | some n => if 0 ≤ n ∧ n ≤ MAX_ADMINLEVEL then n else MAX_ADMINLEVEL
      | none => MAX_ADMINLEVEL
    else MAX_ADMINLEVEL

/-- `gazetteer_style_t::clear`: reset the cached per-object data, keeping
the loaded style data. -/
def gazetteer_style_t.clear (s : gazetteer_style_t) : gazetteer_style_t :=
  { s with
    m_main := []
    m_names := []
    m_extra := []
    m_address := []
    m_operator := none
    m_admin_level := MAX_ADMINLEVEL }

/-- `gazetteer_style_t::process_tags` combined with `filter_main_tags`.
Modelled from the spec: the bodies are in the missing `.cpp`.  The cached
data is cleared and refilled: main candidates are filtered by
`retain_main`, names collect `SF_NAME`/`SF_REF` attributes plus one
synthetic operator name per retained main entry when an operator value was
captured, addresses collect `SF_ADDRESS`/`SF_ADDRESS_POINT` and the
`SF_POSTCODE`/`SF_COUNTRY` special entries, extras collect `SF_EXTRA`, and
the admin level is derived as in `admin_level_of`. -/
def gazetteer_style_t.process_tags (s : gazetteer_style_t) (o : osm_object_t) :
    gazetteer_style_t :=
  let cands := main_candidates s o.tags
  let names0 := base_names s o.tags
  let op := operator_present s o.tags
  let stronger := stronger_main_exists cands
  let mains := cands.filter (fun c =>
    retain_main o.is_named names0 stronger op.isSome c.1 c.2.2)
  { s.clear with
    m_main := mains
    m_names := names0 ++
      (match op with
       | some opv => mains.map (fun c => operator_name opv c.1)
       | none => [])
    m_address := o.tags.filter (fun p =>
      (s.find_flag p.1 p.2).SF_ADDRESS || (s.find_flag p.1 p.2).SF_ADDRESS_POINT ||
      (s.find_flag p.1 p.2).SF_POSTCODE || (s.find_flag p.1 p.2).SF_COUNTRY)
    m_extra := o.tags.filter (fun p => (s.find_flag p.1 p.2).SF_EXTRA)
    m_operator := op
    m_admin_level := admin_level_of s o.tags }

/-- `gazetteer_style_t::has_data`: true exactly when the cached main list
is non-empty (source: `!m_main.empty()`). -/
def gazetteer_style_t.has_data (s : gazetteer_style_t) : Bool :=
  !s.m_main.isEmpty

/-! ## The delete batcher `db_deleter_place_t` -/

/-- `db_deleter_place_t::Max_entries`. -/
def Max_entries : Nat := 100000

/-- `db_deleter_place_t::item_t`.  The two-argument constructor of the
source leaves `classes` default-constructed, i.e. the empty string. -/
structure item_t where
  classes : String := ""
  osm_id : Int
  osm_type : Char
deriving DecidableEq, Repr

/-- `db_deleter_place_t`: the vector of pending delete items. -/
structure db_deleter_place_t where
  m_deletables : List item_t := []
deriving DecidableEq, Repr

/-- `db_deleter_place_t::has_data`: `!m_deletables.empty()`. -/
def db_deleter_place_t.has_data (d : db_deleter_place_t) : Bool :=
  !d.m_deletables.isEmpty

/-- The three-argument `db_deleter_place_t::add`: record a conditional
delete keeping the listed classes (`emplace_back(osm_type, osm_id,
classes)`). -/
def db_deleter_place_t.add (d : db_deleter_place_t) (osm_type : Char)
    (osm_id : Int) (classes : String) : db_deleter_place_t :=
  { d with m_deletables := d.m_deletables ++
      [{ classes := classes, osm_id := osm_id, osm_type := osm_type }] }

/-- The two-argument `db_deleter_place_t::add` overload: record an
unconditional delete (`emplace_back(osm_type, osm_id)`). -/
def db_deleter_place_t.add_unconditional (d : db_deleter_place_t)
    (osm_type : Char) (osm_id : Int) : db_deleter_place_t :=
  { d with m_deletables := d.m_deletables ++
      [{ osm_id := osm_id, osm_type := osm_type }] }

/-- `db_deleter_place_t::is_full`: `m_deletables.size() > Max_entries`. -/
def db_deleter_place_t.is_full (d : db_deleter_place_t) : Bool :=
  d.m_deletables.length > Max_entries

/-- A row of the destination place table, reduced to the columns the delete
predicate reads: the compound identity `(osm_type, osm_id)` and the
class. -/
structure place_row_t where
  osm_type : Char
  osm_id : Int
  osm_class : String
deriving DecidableEq, Repr

/-- Split a character list at every comma. -/
def split_chars : List Char → List (List Char)
  | [] => [[]]
  | c :: cs =>
    match split_chars cs, c == ',' with
    | r, true => [] :: r
    | [], false => [[c]]
    | g :: gs, false => (c :: g) :: gs

/-- The comma-separated keep list of a delete item. -/
def keep_class_list (s : String) : List String :=
  (split_chars s.data).map (fun l => String.mk l)

/-- Whether a delete item removes a row.  Modelled from the spec: the
predicate of the missing `delete_rows` body — "identity matches AND (keep
list empty OR class not in keep list)". -/
def item_matches (it : item_t) (r : place_row_t) : Bool :=
  r.osm_type == it.osm_type && r.osm_id == it.osm_id &&
  (it.classes == "" || !(keep_class_list it.classes).contains r.osm_class)

/-- `db_deleter_place_t::delete_rows`.  Modelled from the spec: the body is
in the missing `.cpp`.  The destination table is abstracted to its row
list and the connection to a success flag: on success the surviving rows
are returned, on failure the transport error propagates; in both cases the
batch is cleared. -/
def db_deleter_place_t.delete_rows (d : db_deleter_place_t)
    (rows : List place_row_t) (conn_ok : Bool) :
    Except String (List place_row_t) × db_deleter_place_t :=
  (if conn_ok then
    Except.ok (rows.filter (fun r => !(d.m_deletables.any (fun it => item_matches it r))))
  else Except.error "connection failure",
  { m_deletables := [] })

/-- Run a sequence of `add` calls: `some classes` uses the three-argument
overload, `none` the two-argument one. -/
def apply_adds : db_deleter_place_t → List (Char × Int × Option String) →
    db_deleter_place_t
  | d, [] => d
  | d, (t, i, some c) :: rest => apply_adds (d.add t i c) rest
  | d, (t, i, none) :: rest => apply_adds (d.add_unconditional t i) rest

/-! ## The table-bound copy manager `gazetteer_copy_mgr_t` -/

/-- `db_target_descr_t` as constructed in the source: schema, table name
and id column. -/
structure db_target_descr_t where
  schema : String
  name : String
  id_column : String
deriving DecidableEq, Repr

/-- `gazetteer_copy_mgr_t`: the descriptor bound at construction plus the
descriptor the current output line was started on (the effect of
`new_line`). -/
structure gazetteer_copy_mgr_t where
  m_table : db_target_descr_t
  current_line_target : Option db_target_descr_t := none
deriving DecidableEq, Repr

/-- The `gazetteer_copy_mgr_t` constructor:
`m_table(std::make_shared<db_target_descr_t>("public", "place",
"place_id"))`. -/
def gazetteer_copy_mgr_t.construct : gazetteer_copy_mgr_t :=
  { m_table := { schema := "public", name := "place", id_column := "place_id" } }

/-- `db_copy_mgr_t::new_line`: start the next output row on the given
target descriptor. -/
def gazetteer_copy_mgr_t.new_line (m : gazetteer_copy_mgr_t)
    (t : db_target_descr_t) : gazetteer_copy_mgr_t :=
  { m with current_line_target := some t }

/-- `gazetteer_copy_mgr_t::prepare`: `new_line(m_table)`. -/
def gazetteer_copy_mgr_t.prepare (m : gazetteer_copy_mgr_t) : gazetteer_copy_mgr_t :=
  m.new_line m.m_table

/-- The states a manager can reach from a given state through the
operations the header defines on it (`prepare`; the constructor is the
start state, and no other member writes to `m_table`). -/
inductive gazetteer_copy_mgr_t.Reaches :
    gazetteer_copy_mgr_t → gazetteer_copy_mgr_t → Prop where
  | refl (m : gazetteer_copy_mgr_t) : Reaches m m
  | step (m m' : gazetteer_copy_mgr_t) : Reaches m m' → Reaches m m'.prepare

/-! ## Concrete fixtures used by witnesses and counterexamples -/

/-- A style with one key rule `shop` flagged `Main` and `MainOperator`;
having an operator rule sets the load-time latch. -/
def shop_operator_style : gazetteer_style_t :=
  { m_matcher := [{ key := some "shop",
                    flag := { SF_MAIN := true, SF_MAIN_OPERATOR := true },
                    type := .MT_KEY }],
    m_any_operator_matches := true }

/-- `{shop: "bakery"}`, no operator attribute. -/
def shop_obj : osm_object_t := { tags := [("shop", "bakery")] }

/-- `{shop: "bakery", operator: "ACME"}`. -/
def shop_operator_obj : osm_object_t :=
  { tags := [("shop", "bakery"), ("operator", "ACME")] }

/-- The named-gate style of the spec: rule `("tourism", *, {MainNamed})`. -/
def tourism_style : gazetteer_style_t :=
  { m_matcher := [{ key := some "tourism",
                    flag := { SF_MAIN := true, SF_MAIN_NAMED := true },
                    type := .MT_KEY }] }

/-- `{tourism: "viewpoint"}` with a chosen `is_named`. -/
def viewpoint_obj (b : Bool) : osm_object_t :=
  { tags := [("tourism", "viewpoint")], is_named := b }

/-- The fallback-law style of the spec: `building` is a fallback main,
`shop` an unconditional main. -/
def fallback_style : gazetteer_style_t :=
  { m_matcher := [{ key := some "building",
                    flag := { SF_MAIN := true, SF_MAIN_FALLBACK := true },
                    type := .MT_KEY },
                  { key := some "shop",
                    flag := { SF_MAIN := true },
                    type := .MT_KEY }] }

/-- `{building: "yes"}`. -/
def building_obj : osm_object_t := { tags := [("building", "yes")] }

/-- `{building: "yes", shop: "bakery"}`. -/
def building_shop_obj : osm_object_t :=
  { tags := [("building", "yes"), ("shop", "bakery")] }

/-- A style whose `boundary` key rule carries the internal Boundary flag. -/
def boundary_style : gazetteer_style_t :=
  { m_matcher := [{ key := some "boundary",
                    flag := { SF_BOUNDARY := true },
                    type := .MT_KEY }] }

/-- A boundary object with a chosen `admin_level` value. -/
def admin_obj (v : String) : osm_object_t :=
  { tags := [("boundary", "administrative"), ("admin_level", v)] }

/-! ## Helper lemmas -/

/-- Projection of `process_tags`: the retained main entries. -/
theorem process_tags_m_main_eq (s : gazetteer_style_t) (o : osm_object_t) :
    (s.process_tags o).m_main = (main_candidates s o.tags).filter
      (fun c => retain_main o.is_named (base_names s o.tags)
        (stronger_main_exists (main_candidates s o.tags))
        (operator_present s o.tags).isSome c.1 c.2.2) := rfl

/-- Projection of `process_tags`: the captured operator value. -/
theorem process_tags_m_operator_eq (s : gazetteer_style_t) (o : osm_object_t) :
    (s.process_tags o).m_operator = operator_present s o.tags := rfl

/-- Projection of `process_tags`: the name bucket. -/
theorem process_tags_m_names_eq (s : gazetteer_style_t) (o : osm_object_t) :
    (s.process_tags o).m_names = base_names s o.tags ++
      (match operator_present s o.tags with
       | some opv => ((s.process_tags o).m_main).map (fun c => operator_name opv c.1)
       | none => []) := rfl

/-- Projection of `process_tags`: the admin level. -/
theorem process_tags_m_admin_eq (s : gazetteer_style_t) (o : osm_object_t) :
    (s.process_tags o).m_admin_level = admin_level_of s o.tags := rfl

/-- The retention test of a main candidate, written out as a proposition. -/
theorem retain_main_eq_true (b : Bool) (names : List (String × String))
    (st opb : Bool) (k : String) (f : flag_t) :
    retain_main b names st opb k f = true ↔
      ((f.SF_MAIN_NAMED = true ∧ b = true) ∨
       (f.SF_MAIN_NAMED_KEY = true ∧ name_key_variant_exists names k = true) ∨
       (f.SF_MAIN_FALLBACK = true ∧ st = false) ∨
       (f.SF_MAIN_NAMED = false ∧ f.SF_MAIN_NAMED_KEY = false ∧
        f.SF_MAIN_FALLBACK = false)) ∧
      (f.SF_MAIN_OPERATOR = true → opb = true) := by
  obtain ⟨f0, f1, f2, f3, f4, f5, f6, f7, f8, f9, f10, f11, f12, f13⟩ := f
  simp only [retain_main]
  generalize name_key_variant_exists names k = nv
  cases f1 <;> cases f2 <;> cases f3 <;> cases f4 <;> cases b <;> cases nv <;>
    cases st <;> cases opb <;> simp

/-- A successful `find?` splits the list at the found element, every earlier
element failing the predicate. -/
theorem find?_decomp {α : Type} (p : α → Bool) (l : List α) (a : α)
    (h : l.find? p = some a) :
    p a = true ∧ ∃ l1 l2, l = l1 ++ a :: l2 ∧ ∀ x ∈ l1, p x = false := by
  induction l with
  | nil => simp at h
  | cons b t ih =>
    rcases hb : p b with _ | _
    · rw [List.find?_cons_of_neg _ (by simp [hb])] at h
      obtain ⟨hpa, l1, l2, rfl, hl1⟩ := ih h
      refine ⟨hpa, b :: l1, l2, rfl, ?_⟩
      intro x hx
      rcases List.mem_cons.mp hx with rfl | hx2
      · exact hb
      · exact hl1 x hx2
    · rw [List.find?_cons_of_pos _ hb] at h
      cases h
      exact ⟨hb, [], t, rfl, by simp⟩

/-- Every match level is at most three. -/
theorem match_level_le_three (m : matcher_t) : match_level m ≤ 3 := by
  cases m <;> simp [match_level]

/-- A failed level search means no matching rule sits at that level. -/
theorem find_best_none_matches (rules : List style_rule_t) (lvl : Nat)
    (k v : String) (h : find_best rules lvl k v = none) :
    ∀ r ∈ rules, rule_matches r k v = true → match_level r.type ≠ lvl := by
  intro r hr hm heq
  have hnone := List.find?_eq_none.mp h r hr
  simp [heq, hm] at hnone

/-- A successful level search yields a matching rule of that level with
every earlier rule of the level failing, and, when no matching rule sits
below the level, the found rule beats every matching rule and strictly
beats every earlier one. -/
theorem find_best_wins (rules : List style_rule_t) (lvl : Nat) (k v : String)
    (r : style_rule_t) (h : find_best rules lvl k v = some r)
    (hlow : ∀ q ∈ rules, rule_matches q k v = true → lvl ≤ match_level q.type) :
    ∃ l1 l2, rules = l1 ++ r :: l2 ∧ rule_matches r k v = true ∧
      (∀ q ∈ rules, rule_matches q k v = true →
        match_level r.type ≤ match_level q.type) ∧
      (∀ q ∈ l1, rule_matches q k v = true →
        match_level r.type < match_level q.type) := by
  obtain ⟨hp, l1, l2, heq, hl1⟩ := find?_decomp _ _ _ h
  rw [Bool.and_eq_true, beq_iff_eq] at hp
  obtain ⟨hlvl, hm⟩ := hp
  refine ⟨l1, l2, heq, hm, ?_, ?_⟩
  · intro q hq hmq
    rw [hlvl]
    exact hlow q hq hmq
  · intro q hq hmq
    have hqmem : q ∈ rules := heq ▸ List.mem_append.mpr (Or.inl hq)
    have hge : lvl ≤ match_level q.type := hlow q hqmem hmq
    have hne : match_level q.type ≠ lvl := by
      intro hc
      have := hl1 q hq
      simp [hc, hmq] at this
    rw [hlvl]
    omega

/-- One `add` appended one item. -/
theorem apply_adds_length (ops : List (Char × Int × Option String))
    (d : db_deleter_place_t) :
    (apply_adds d ops).m_deletables.length = d.m_deletables.length + ops.length := by
  induction ops generalizing d with
  | nil => simp [apply_adds]
  | cons op rest ih =>
    obtain ⟨t, i, oc⟩ := op
    rcases oc with _ | c <;>
      simp [apply_adds, ih, db_deleter_place_t.add,
        db_deleter_place_t.add_unconditional] <;> omega

/-- `admin_level_of` stays within the sentinel range. -/
theorem admin_level_of_bounds (s : gazetteer_style_t)
    (tags : List (String × String)) :
    0 ≤ admin_level_of s tags ∧ admin_level_of s tags ≤ MAX_ADMINLEVEL := by
  unfold admin_level_of MAX_ADMINLEVEL
  rcases h : tags.find? (fun p => p.1 == "admin_level") with _ | p <;>
    simp only [h]
  · norm_num
  · split
    · rcases hp : parse_int p.2 with _ | n <;> simp only [hp]
      · norm_num
      · split
        · omega
        · norm_num
    · norm_num

/-! ## Claim theorems -/

/-- Claim C4: on a fresh delete batcher, `is_full` is true exactly when the
number of added entries exceeds 100,000; in particular it is true after
100,001 adds and false after 99,999. -/
theorem is_full_threshold (ops : List (Char × Int × Option String)) :
    (apply_adds {} ops).is_full = decide (ops.length > 100000) ∧
    (apply_adds {} (List.replicate 100001 ('N', 1, none))).is_full = true ∧
    (apply_adds {} (List.replicate 99999 ('N', 1, none))).is_full = false := by
  have hgen : ∀ l : List (Char × Int × Option String),
      (apply_adds {} l).is_full = decide (l.length > 100000) := by
    intro l
    have hl := apply_adds_length l {}
    unfold db_deleter_place_t.is_full Max_entries
    rw [hl]
    simp [decide_eq_decide]
  refine ⟨hgen ops, ?_, ?_⟩
  · rw [hgen]
    norm_num [List.length_replicate]
  · rw [hgen]
    norm_num [List.length_replicate]

/-- Claim C8: `delete_rows` consumes its batch unconditionally — whether
the transport succeeds or fails, the pending batch is empty afterwards
(`has_data` false), and a transport failure propagates as an error with no
internal retry. -/
theorem delete_rows_consumes (d : db_deleter_place_t) (rows : List place_row_t)
    (conn_ok : Bool) :
    (d.delete_rows rows conn_ok).2.has_data = false ∧
    (conn_ok = false →
      (d.delete_rows rows conn_ok).1 = Except.error "connection failure") := by
  constructor
  · rfl
  · intro h
    simp [db_deleter_place_t.delete_rows, h]

/-- Witness for C8: a concrete failing flush leaves an empty batch and
reports the error. -/
theorem delete_rows_consumes_witness :
    ((({} : db_deleter_place_t).add_unconditional 'N' 1).delete_rows [] false).2.has_data
      = false ∧
    ((({} : db_deleter_place_t).add_unconditional 'N' 1).delete_rows [] false).1 =
      Except.error "connection failure" :=
  ⟨(delete_rows_consumes (({} : db_deleter_place_t).add_unconditional 'N' 1) [] false).1,
   (delete_rows_consumes (({} : db_deleter_place_t).add_unconditional 'N' 1) [] false).2 rfl⟩

/-- Claim C10: every manager state reachable from construction carries the
fixed place-table descriptor, and `prepare` always starts the new output
row on exactly that descriptor. -/
theorem copy_mgr_fixed_target (m : gazetteer_copy_mgr_t)
    (h : gazetteer_copy_mgr_t.Reaches gazetteer_copy_mgr_t.construct m) :
    m.m_table =
      { schema := "public", name := "place", id_column := "place_id" } ∧
    m.prepare.current_line_target =
      some { schema := "public", name := "place", id_column := "place_id" } := by
  induction h with
  | refl => exact ⟨rfl, rfl⟩
  | step m1 h2 ih =>
    refine ⟨ih.1, ?_⟩
    simp [gazetteer_copy_mgr_t.prepare, gazetteer_copy_mgr_t.new_line, ih.1]

/-- Witness for C10 at the freshly constructed manager. -/
theorem copy_mgr_fixed_target_witness :
    gazetteer_copy_mgr_t.construct.m_table =
      { schema := "public", name := "place", id_column := "place_id" } ∧
    gazetteer_copy_mgr_t.construct.prepare.current_line_target =
      some { schema := "public", name := "place", id_column := "place_id" } :=
  copy_mgr_fixed_target gazetteer_copy_mgr_t.construct
    (gazetteer_copy_mgr_t.Reaches.refl _)

/-- Claim C7: classification is total — for every style and every object,
`process_tags` produces a well-formed result whose admin level stays in
`[0, 15]`, and `has_data` holds exactly when the retained main entries are
non-empty. -/
theorem process_tags_valid (s : gazetteer_style_t) (o : osm_object_t) :
    ((s.process_tags o).has_data = true ↔ (s.process_tags o).m_main ≠ []) ∧
    0 ≤ (s.process_tags o).m_admin_level ∧
    (s.process_tags o).m_admin_level ≤ MAX_ADMINLEVEL := by
  refine ⟨?_, ?_⟩
  · simp [gazetteer_style_t.has_data, List.isEmpty_iff]
  · rw [process_tags_m_admin_eq]
    exact admin_level_of_bounds s o.tags

/-- Claim C9: classification is deterministic — two classifier states with
the same loaded style data classify an object identically, and re-running
`process_tags` on its own result changes nothing. -/
theorem process_tags_deterministic (s1 s2 : gazetteer_style_t)
    (o : osm_object_t)
    (hm : s1.m_matcher = s2.m_matcher) (hd : s1.m_default = s2.m_default)
    (ha : s1.m_any_operator_matches = s2.m_any_operator_matches)
    (hmf : s1.m_metadata_fields = s2.m_metadata_fields) :
    s1.process_tags o = s2.process_tags o ∧
    (s1.process_tags o).process_tags o = s1.process_tags o := by
  obtain ⟨a1, b1, c1, d1, e1, f1, g1, h1, i1, j1⟩ := s1
  obtain ⟨a2, b2, c2, d2, e2, f2, g2, h2, i2, j2⟩ := s2
  dsimp only at hm hd ha hmf
  subst hm hd ha hmf
  exact ⟨rfl, rfl⟩

/-- Witness for C9: two states sharing style data but differing in cached
object data classify the named-gate object identically. -/
theorem process_tags_deterministic_witness :
    tourism_style.process_tags (viewpoint_obj true) =
      { tourism_style with m_admin_level := 3 }.process_tags (viewpoint_obj true) ∧
    (tourism_style.process_tags (viewpoint_obj true)).process_tags
      (viewpoint_obj true) = tourism_style.process_tags (viewpoint_obj true) :=
  process_tags_deterministic tourism_style
    { tourism_style with m_admin_level := 3 } (viewpoint_obj true) rfl rfl rfl rfl

/-- Claim C3: a conditional delete removes exactly the rows of the given
identity whose class is outside the comma-separated keep list, and an
unconditional delete removes every row of the identity. -/
theorem delete_rows_keep_classes (t : Char) (i : Int) (keeps : String)
    (hk : keeps ≠ "") (rows : List place_row_t) (r : place_row_t) :
    (∃ out, ((({} : db_deleter_place_t).add t i keeps).delete_rows rows true).1 =
        Except.ok out ∧
      (r ∈ out ↔ r ∈ rows ∧
        (r.osm_type ≠ t ∨ r.osm_id ≠ i ∨ r.osm_class ∈ keep_class_list keeps))) ∧
    (∃ out,
      ((({} : db_deleter_place_t).add_unconditional t i).delete_rows rows true).1 =
        Except.ok out ∧
      (r ∈ out ↔ r ∈ rows ∧ (r.osm_type ≠ t ∨ r.osm_id ≠ i))) := by
  have hkb : (keeps == "") = false := beq_eq_false_iff_ne.mpr hk
  constructor
  · refine ⟨_, rfl, ?_⟩
    rw [List.mem_filter]
    apply and_congr_right
    intro _
    simp [db_deleter_place_t.add, item_matches, hkb, List.contains,
      List.elem_iff, not_and_or]
    tauto
  · refine ⟨_, rfl, ?_⟩
    rw [List.mem_filter]
    apply and_congr_right
    intro _
    simp [db_deleter_place_t.add_unconditional, item_matches, not_and_or]

/-- Witness for C3: the spec's `keep_classes = "shop,amenity"` example —
the `shop` row of the identity survives, a `tourism` row of the identity
is removed, and under an unconditional delete the `shop` row is removed
too. -/
theorem delete_rows_keep_classes_witness :
    (∃ out, ((({} : db_deleter_place_t).add 'N' 5 "shop,amenity").delete_rows
        [{ osm_type := 'N', osm_id := 5, osm_class := "shop" }] true).1 =
        Except.ok out ∧
      ({ osm_type := 'N', osm_id := 5, osm_class := "shop" } ∈ out ↔
        { osm_type := 'N', osm_id := 5, osm_class := "shop" } ∈
          ([{ osm_type := 'N', osm_id := 5, osm_class := "shop" }] : List place_row_t) ∧
        (('N' : Char) ≠ 'N' ∨ (5 : Int) ≠ 5 ∨
          "shop" ∈ keep_class_list "shop,amenity"))) ∧
    (∃ out, ((({} : db_deleter_place_t).add_unconditional 'N' 5).delete_rows
        [{ osm_type := 'N', osm_id := 5, osm_class := "shop" }] true).1 =
        Except.ok out ∧
      ({ osm_type := 'N', osm_id := 5, osm_class := "shop" } ∈ out ↔
        { osm_type := 'N', osm_id := 5, osm_class := "shop" } ∈
          ([{ osm_type := 'N', osm_id := 5, osm_class := "shop" }] : List place_row_t) ∧
        (('N' : Char) ≠ 'N' ∨ (5 : Int) ≠ 5))) :=
  delete_rows_keep_classes 'N' 5 "shop,amenity" (by decide)
    [{ osm_type := 'N', osm_id := 5, osm_class := "shop" }]
    { osm_type := 'N', osm_id := 5, osm_class := "shop" }

/-- Claim C2: `find_flag` picks the single best-matching rule — its flags
come from a matching rule that no matching rule beats on level
(Full, KeyOnly, Pre/Suf, ValueOnly in that order) and that no
earlier-declared matching rule ties on level; with no matching rule at all
the default flags apply. -/
theorem find_flag_best_match (s : gazetteer_style_t) (k v : String) :
    (∃ r l1 l2, s.m_matcher = l1 ++ r :: l2 ∧ rule_matches r k v = true ∧
      (∀ q ∈ s.m_matcher, rule_matches q k v = true →
        match_level r.type ≤ match_level q.type) ∧
      (∀ q ∈ l1, rule_matches q k v = true →
        match_level r.type < match_level q.type) ∧
      s.find_flag k v = r.flag) ∨
    ((∀ q ∈ s.m_matcher, rule_matches q k v = false) ∧
      s.find_flag k v = s.m_default) := by
  rcases h0 : find_best s.m_matcher 0 k v with _ | r0
  on_goal 2 =>
    left
    obtain ⟨l1, l2, heq, hm, hglob, hearly⟩ :=
      find_best_wins _ _ _ _ _ h0 (fun q _ _ => Nat.zero_le _)
    exact ⟨r0, l1, l2, heq, hm, hglob, hearly,
      by simp [gazetteer_style_t.find_flag, h0]⟩
  have n0 := find_best_none_matches _ _ _ _ h0
  rcases h1 : find_best s.m_matcher 1 k v with _ | r1
  on_goal 2 =>
    left
    have hlow : ∀ q ∈ s.m_matcher, rule_matches q k v = true →
        1 ≤ match_level q.type := by
      intro q hq hmq
      have hx0 := n0 q hq hmq
      omega
    obtain ⟨l1, l2, heq, hm, hglob, hearly⟩ := find_best_wins _ _ _ _ _ h1 hlow
    exact ⟨r1, l1, l2, heq, hm, hglob, hearly,
      by simp [gazetteer_style_t.find_flag, h0, h1]⟩
  have n1 := find_best_none_matches _ _ _ _ h1
  rcases h2 : find_best s.m_matcher 2 k v with _ | r2
  on_goal 2 =>
    left
    have hlow : ∀ q ∈ s.m_matcher, rule_matches q k v = true →
        2 ≤ match_level q.type := by
      intro q hq hmq
      have hx0 := n0 q hq hmq
      have hx1 := n1 q hq hmq
      omega
    obtain ⟨l1, l2, heq, hm, hglob, hearly⟩ := find_best_wins _ _ _ _ _ h2 hlow
    exact ⟨r2, l1, l2, heq, hm, hglob, hearly,
      by simp [gazetteer_style_t.find_flag, h0, h1, h2]⟩
  have n2 := find_best_none_matches _ _ _ _ h2
  rcases h3 : find_best s.m_matcher 3 k v with _ | r3
  on_goal 2 =>
    left
    have hlow : ∀ q ∈ s.m_matcher, rule_matches q k v = true →
        3 ≤ match_level q.type := by
      intro q hq hmq
      have hx0 := n0 q hq hmq
      have hx1 := n1 q hq hmq
      have hx2 := n2 q hq hmq
      omega
    obtain ⟨l1, l2, heq, hm, hglob, hearly⟩ := find_best_wins _ _ _ _ _ h3 hlow
    exact ⟨r3, l1, l2, heq, hm, hglob, hearly,
      by simp [gazetteer_style_t.find_flag, h0, h1, h2, h3]⟩
  have n3 := find_best_none_matches _ _ _ _ h3
  right
  constructor
  · intro q hq
    rcases hb : rule_matches q k v with _ | _
    · rfl
    · exfalso
      have hle := match_level_le_three q.type
      have hx0 := n0 q hq hb
      have hx1 := n1 q hq hb
      have hx2 := n2 q hq hb
      have hx3 := n3 q hq hb
      omega
  · simp [gazetteer_style_t.find_flag, h0, h1, h2, h3]

/-- Claim C5: the admin level defaults to the sentinel 15, stays within
`[0, 15]` and never fails; it moves off the sentinel only when the object
carries an `admin_level` attribute, is Boundary-flagged and the value
parses within range, and such a qualifying attribute sets it to the parsed
value. -/
theorem admin_level_clamped (s : gazetteer_style_t) (o : osm_object_t) :
    (0 ≤ (s.process_tags o).m_admin_level ∧
      (s.process_tags o).m_admin_level ≤ MAX_ADMINLEVEL) ∧
    ((s.process_tags o).m_admin_level ≠ MAX_ADMINLEVEL →
      object_is_boundary s o.tags = true ∧
      ∃ kv, o.tags.find? (fun p => p.1 == "admin_level") = some kv ∧
        ∃ n, parse_int kv.2 = some n ∧ 0 ≤ n ∧ n ≤ MAX_ADMINLEVEL ∧
          (s.process_tags o).m_admin_level = n) ∧
    (∀ kv, o.tags.find? (fun p => p.1 == "admin_level") = some kv →
      object_is_boundary s o.tags = true →
      ∀ n, parse_int kv.2 = some n → 0 ≤ n → n ≤ MAX_ADMINLEVEL →
        (s.process_tags o).m_admin_level = n) := by
  refine ⟨by rw [process_tags_m_admin_eq]; exact admin_level_of_bounds s o.tags,
    ?_, ?_⟩
  · rw [process_tags_m_admin_eq]
    unfold admin_level_of
    rcases h : o.tags.find? (fun p => p.1 == "admin_level") with _ | p <;>
      simp only [h]
    · intro hne
      exact absurd rfl hne
    · split
      case isTrue hb =>
        rcases hp : parse_int p.2 with _ | n <;> simp only [hp]
        · intro hne
          exact absurd rfl hne
        · split
          case isTrue hr =>
            intro _
            exact ⟨hb, p, rfl, n, hp, hr.1, hr.2, rfl⟩
          case isFalse hr =>
            intro hne
            exact absurd rfl hne
      case isFalse hb =>
        intro hne
        exact absurd rfl hne
  · intro kv hkv hb n hn h0 h15
    rw [process_tags_m_admin_eq]
    unfold admin_level_of
    simp only [hkv, hb, hn, if_true]
    rw [if_pos ⟨h0, h15⟩]

/-- Claim C6: a `MainOperator`-flagged main entry can only be retained with
the operator latch set and an operator attribute present, and a captured
operator value lands in `m_operator` and adds one synthetic
`(operator_value, class)` name per retained main entry. -/
theorem operator_synthesis (s : gazetteer_style_t) (o : osm_object_t) :
    (∀ c ∈ (s.process_tags o).m_main, c.2.2.SF_MAIN_OPERATOR = true →
      s.m_any_operator_matches = true ∧ ∃ p ∈ o.tags, p.1 = "operator") ∧
    (∀ opv, operator_present s o.tags = some opv →
      (s.process_tags o).m_operator = some opv ∧
      ∀ c ∈ (s.process_tags o).m_main,
        operator_name opv c.1 ∈ (s.process_tags o).m_names) := by
  constructor
  · intro c hc hop
    rw [process_tags_m_main_eq, List.mem_filter] at hc
    obtain ⟨hcand, hret⟩ := hc
    rw [retain_main_eq_true] at hret
    have hsome := hret.2 hop
    unfold operator_present at hsome
    by_cases hany : s.m_any_operator_matches = true
    · refine ⟨hany, ?_⟩
      simp only [hany, if_true] at hsome
      rcases hf : o.tags.find? (fun p => p.1 == "operator") with _ | p
      · rw [hf] at hsome
        simp at hsome
      · have hpm := List.mem_of_find?_eq_some hf
        have hpk := List.find?_some hf
        simp only [beq_iff_eq] at hpk
        exact ⟨p, hpm, hpk⟩
    · simp only [Bool.not_eq_true] at hany
      simp [hany] at hsome
  · intro opv hopv
    refine ⟨by rw [process_tags_m_operator_eq, hopv], ?_⟩
    intro c hc
    rw [process_tags_m_names_eq]
    simp only [hopv]
    exact List.mem_append.mpr (Or.inr (List.mem_map.mpr ⟨c, hc, rfl⟩))

/-- Claim C1, counterexample: with the rule `shop → {Main, MainOperator}`
(operator latch set), the object `{shop: "bakery"}` carries a Main-flagged
attribute with none of MainNamed/MainNamedKey/MainFallback set, yet yields
zero main entries (the operator gate fails); the same object with an added
`operator` attribute yields exactly the one entry even though its flags
include the conditional MainOperator sub-flag. -/
theorem main_retention_counterexample :
    (shop_operator_style.find_flag "shop" "bakery").SF_MAIN = true ∧
    (shop_operator_style.find_flag "shop" "bakery").SF_MAIN_NAMED = false ∧
    (shop_operator_style.find_flag "shop" "bakery").SF_MAIN_NAMED_KEY = false ∧
    (shop_operator_style.find_flag "shop" "bakery").SF_MAIN_FALLBACK = false ∧
    (shop_operator_style.process_tags shop_obj).m_main = [] ∧
    (shop_operator_style.find_flag "shop" "bakery").SF_MAIN_OPERATOR = true ∧
    (shop_operator_style.process_tags shop_operator_obj).m_main =
      [("shop", "bakery", shop_operator_style.find_flag "shop" "bakery")] := by
  decide

/-- Claim C1, amended: an attribute is a retained main entry exactly when it
is flagged Main, one of the retention arms holds (MainNamed with a named
object, MainNamedKey with a same-key name variant, MainFallback with no
stronger candidate, or none of those three sub-flags), and, when flagged
MainOperator, the operator conditions of C6 additionally hold. -/
theorem main_entry_retention (s : gazetteer_style_t) (o : osm_object_t)
    (k v : String) :
    (k, v, s.find_flag k v) ∈ (s.process_tags o).m_main ↔
      ((k, v) ∈ o.tags ∧ (s.find_flag k v).SF_MAIN = true ∧
       (((s.find_flag k v).SF_MAIN_NAMED = true ∧ o.is_named = true) ∨
        ((s.find_flag k v).SF_MAIN_NAMED_KEY = true ∧
          name_key_variant_exists (base_names s o.tags) k = true) ∨
        ((s.find_flag k v).SF_MAIN_FALLBACK = true ∧
          stronger_main_exists (main_candidates s o.tags) = false) ∨
        ((s.find_flag k v).SF_MAIN_NAMED = false ∧
         (s.find_flag k v).SF_MAIN_NAMED_KEY = false ∧
         (s.find_flag k v).SF_MAIN_FALLBACK = false)) ∧
       ((s.find_flag k v).SF_MAIN_OPERATOR = true →
         (operator_present s o.tags).isSome = true)) := by
  rw [process_tags_m_main_eq, List.mem_filter]
  constructor
  · rintro ⟨hmem, hret⟩
    rw [main_candidates, List.mem_filterMap] at hmem
    obtain ⟨p, hp, hsome⟩ := hmem
    obtain ⟨pk, pv⟩ := p
    by_cases hm : (s.find_flag pk pv).SF_MAIN = true
    · simp only [hm, if_true, Option.some.injEq, Prod.mk.injEq] at hsome
      obtain ⟨hkk, hvv, _⟩ := hsome
      subst hkk
      subst hvv
      rw [retain_main_eq_true] at hret
      exact ⟨hp, hm, hret.1, hret.2⟩
    · simp only [Bool.not_eq_true] at hm
      simp [hm] at hsome
  · rintro ⟨hmem, hmain, harms, hgate⟩
    refine ⟨?_, ?_⟩
    · rw [main_candidates, List.mem_filterMap]
      exact ⟨(k, v), hmem, by simp [hmain]⟩
    · rw [retain_main_eq_true]
      exact ⟨harms, hgate⟩
